import Mathlib

/-!
# Verification of the LyricGenerator core (`src/lyric_generator.py`)

A shallow embedding of the core logic of the lyric-video generator:

* `LrcParser.parse` — the LRC lyric-file parser (timestamp tags, sorting);
* `FrameRenderer` — per-line visual parameters (scale / alpha / blur /
  vertical position), active-line lookup, and the per-frame compositing
  pipeline, with the external PIL raster primitives (text measurement,
  glyph drawing, resampling, blur, paste) abstracted as an oracle;
* `ExportThread.run` — the ffmpeg export loop, modelled as the sequence of
  observable events it performs (frame writes, progress signals, closing
  the pipe, waiting on the subprocess, terminal signals).

Machine reals (Python floats) are modelled by `ℚ`; Python `int()` by
truncating rational-to-integer conversion, Python `//` by floor division.
-/

/-- Python `int(q)` on a rational: truncation toward zero.  `Int.tdiv`
truncates toward zero and `q.den > 0`, so truncation of `q` is
`q.num.tdiv q.den`. -/
def pyIntQ (q : ℚ) : ℤ := q.num.tdiv (q.den : ℤ)

/-- Modelled from the spec: Python's built-in `round` (round-half-to-even,
"banker's rounding"), which the spec's `round(duration_seconds * frame_rate)`
refers to.  Used only to state the spec-side frame-count formula; the code
itself uses `int(...)` (cf. `pyIntQ`). -/
def pyRound (q : ℚ) : ℤ :=
  let f := q.floor
  let r := q - (f : ℚ)
  if r < 1/2 then f
  else if (1/2 : ℚ) < r then f + 1
  else if f % 2 = 0 then f else f + 1

/-- Python float floor-division `a // b` (result itself a float). -/
def pyFloorDivQ (a b : ℚ) : ℚ := (((a / b).floor : ℤ) : ℚ)

/-! ## Data model: lyric lines (`{'time': ..., 'text': ...}` dicts) -/

/-- One parsed lyric entry, the `{'time': total_seconds, 'text': text}`
dict appended by `LrcParser.parse`. -/
structure LyricLine where
  time : ℚ
  text : String
deriving DecidableEq

/-! ## LRC parser (`LrcParser.parse`, src lines 44-72)

The regex `\[(\d{2}):(\d{2})\.(\d{2,3})\]` is embedded as a character-level
matcher `tagAt` (match at the current position), from which `searchTag`
(`re.search`: first match anywhere) and `subTags` (`re.sub('', ...)`:
remove every match, scanning left to right) are built. -/

/-- Value of an ASCII digit character (what `int` does per digit). -/
def digitVal (c : Char) : ℕ := c.toNat - 48

/-- Consume one expected literal character. -/
def expectChar (ch : Char) : List Char → Option (List Char)
  | c :: cs => if c = ch then some cs else none
  | [] => none

/-- Consume one decimal digit (`\d`), returning its value. -/
def expectDigit : List Char → Option (ℕ × List Char)
  | c :: cs => if c.isDigit then some (digitVal c, cs) else none
  | [] => none

/-- `total_seconds = int(mm) * 60 + int(ss) + ms_val / 1000.0` (src line 65). -/
def tsec (mm ss ms_val : ℕ) : ℚ := (mm : ℚ) * 60 + (ss : ℚ) + (ms_val : ℚ) / 1000

/-- The greedy third-digit branch of `\d{2,3}\]`: one more digit followed
by the closing `]`. -/
def threeDigitTail (cs : List Char) : Option (ℕ × List Char) :=
  match expectDigit cs with
  | none => none
  | some (f3, cs3) =>
    match expectChar ']' cs3 with
    | none => none
    | some cs4 => some (f3, cs4)

/-- Match the tag regex `\[(\d{2}):(\d{2})\.(\d{2,3})\]` at the head of the
character list.  On success, returns the interpreted match groups
`(mm, ss, ms_val)` — with the 2-digit fractional field already scaled by
10 into milliseconds (src lines 62-63) — and the characters following the
match.  The `\d{2,3}` is greedy: three digits followed by `]` are
preferred (`threeDigitTail`); otherwise two digits followed by `]`. -/
def tagAt (cs0 : List Char) : Option ((ℕ × ℕ × ℕ) × List Char) :=
  match expectChar '[' cs0 with
  | none => none
  | some cs1 =>
  match expectDigit cs1 with
  | none => none
  | some (m1, cs2) =>
  match expectDigit cs2 with
  | none => none
  | some (m2, cs3) =>
  match expectChar ':' cs3 with
  | none => none
  | some cs4 =>
  match expectDigit cs4 with
  | none => none
  | some (s1, cs5) =>
  match expectDigit cs5 with
  | none => none
  | some (s2, cs6) =>
  match expectChar '.' cs6 with
  | none => none
  | some cs7 =>
  match expectDigit cs7 with
  | none => none
  | some (f1, cs8) =>
  match expectDigit cs8 with
  | none => none
  | some (f2, cs9) =>
  let mm := 10 * m1 + m2
  let ss := 10 * s1 + s2
  match threeDigitTail cs9 with
  | some (f3, cs10) => some ((mm, ss, 100 * f1 + 10 * f2 + f3), cs10)
  | none =>
    match expectChar ']' cs9 with
    | none => none
    | some cs10 => some ((mm, ss, (10 * f1 + f2) * 10), cs10)

/-- `time_pattern.search(line)`: the interpreted groups `(mm, ss, ms_val)`
of the first match of the tag regex, scanning positions left to right;
`none` when the line has no tag. -/
def searchTag : List Char → Option (ℕ × ℕ × ℕ)
  | [] => none
  | c :: cs =>
    match tagAt (c :: cs) with
    | some (g, _) => some g
    | none => searchTag cs

/-- Worker for `subTags`.  Every successful `tagAt` consumes at least ten
characters and every failure advances one character, so fuel equal to the
input length never runs out; the fuel only makes the recursion structural. -/
def subTagsGo : ℕ → List Char → List Char
  | 0, cs => cs
  | _ + 1, [] => []
  | fuel + 1, c :: cs =>
    match tagAt (c :: cs) with
    | some (_, rest) => subTagsGo fuel rest
    | none => c :: subTagsGo fuel cs

/-- `time_pattern.sub('', line)`: the line with every tag match removed. -/
def subTags (cs : List Char) : List Char := subTagsGo cs.length cs

/-- Python `str.strip()` on a character list. -/
def pyStrip (cs : List Char) : List Char :=
  ((cs.dropWhile Char.isWhitespace).reverse.dropWhile Char.isWhitespace).reverse

/-- The body of the parse loop (src lines 56-68) for a single input line:
strip the line, search for a tag; with a tag, the entry
`{'time': total_seconds, 'text': stripped tag-free text}` is produced
unless that text is empty (in which case the line is dropped); without a
tag the line is ignored. -/
def parseLine (raw : String) : Option LyricLine :=
  let line := pyStrip raw.toList
  match searchTag line with
  | none => none
  | some (mm, ss, ms_val) =>
    let total_seconds := tsec mm ss ms_val
    let text := pyStrip (subTags line)
    if text = [] then none else some ⟨total_seconds, String.mk text⟩

/-- The sort key relation of `lyrics.sort(key=lambda x: x['time'])`. -/
def timeLE (a b : LyricLine) : Prop := a.time ≤ b.time

instance : DecidableRel timeLE := fun a b => inferInstanceAs (Decidable (a.time ≤ b.time))

instance : IsTotal LyricLine timeLE := ⟨fun a b => le_total a.time b.time⟩

instance : IsTrans LyricLine timeLE := ⟨fun _ _ _ => le_trans⟩

/-- The list of entries collected by the parse loop, in input order,
before the final sort.  The file system is passed explicitly as an
association list from existing paths to their lines (`f.readlines()`);
`os.path.exists` is `lookup ≠ none` and `not file_path` is `path = ""`
(src lines 46-52). -/
def parsedEntries (file_path : String) (fs : List (String × List String)) : List LyricLine :=
  if file_path = "" ∨ fs.lookup file_path = none then []
  else ((fs.lookup file_path).getD []).filterMap parseLine

/-- `LrcParser.parse` (src lines 44-72): collect the tagged lines, then
`lyrics.sort(key=lambda x: x['time'])` — a stable ascending sort, modelled
by stable insertion sort. -/
def LrcParser.parse (file_path : String) (fs : List (String × List String)) : List LyricLine :=
  List.insertionSort timeLE (parsedEntries file_path fs)

/-! ## Frame renderer (`FrameRenderer`, src lines 74-247)

Pixel rasters are `Layer`s: a size plus a pixel map.  The external PIL
primitives (text measurement, glyph rasterization, Lanczos resampling,
Gaussian blur, masked paste) are abstracted as a `PILOracle`; everything
the Python code computes itself (sizes, positions, effect parameters,
control flow) is embedded concretely.  A PIL font object is represented by
its requested pixel size (font files are external resources). -/

/-- Horizontal alignment (`self.p['align'] ∈ {'left','center','right'}`). -/
inductive Align where
  | left
  | center
  | right
deriving DecidableEq

/-- The `shadow` parameter dict. -/
structure ShadowCfg where
  enabled : Bool
  color : ℕ × ℕ × ℕ
  x : ℤ
  y : ℤ

/-- The `stroke` parameter dict. -/
structure StrokeCfg where
  enabled : Bool
  color : ℕ × ℕ × ℕ
  width : ℕ

/-- The style/export parameter dict `self.params` (src lines 349-370).
Integer-valued UI parameters are `ℤ`/`ℕ`; float-valued ones are `ℚ`. -/
structure Params where
  width : ℤ
  height : ℤ
  duration : ℚ
  bitrate : String
  visible_lines : ℕ
  line_spacing : ℤ
  align : Align
  font_path : String
  font_size : ℤ
  font_color : ℕ × ℕ × ℕ
  scale_decay : ℚ
  fade_decay : ℚ
  blur_base : ℚ
  blur_inc : ℚ
  meta_title : String
  meta_artist : String
  meta_album : String
  shadow : ShadowCfg
  stroke : StrokeCfg

/-- The default parameter values of `MainWindow.__init__` (src lines 349-370). -/
def defaultParams : Params where
  width := 1920
  height := 1080
  duration := 60
  bitrate := "50M"
  visible_lines := 10
  line_spacing := 80
  align := Align.center
  font_path := "arial.ttf"
  font_size := 60
  font_color := (255, 255, 255)
  scale_decay := mkRat 1 10
  fade_decay := mkRat 1 2
  blur_base := 0
  blur_inc := 2
  meta_title := "Song Title"
  meta_artist := "Artist"
  meta_album := "Album"
  shadow := ⟨false, (0, 0, 0), 2, 2⟩
  stroke := ⟨false, (0, 0, 0), 2⟩

/-- An 8-bit RGBA pixel. -/
structure RGBA where
  r : ℕ
  g : ℕ
  b : ℕ
  a : ℕ
deriving DecidableEq

/-- An RGBA raster: a size plus a pixel map (PIL `Image` in mode RGBA). -/
structure Layer where
  w : ℤ
  h : ℤ
  pix : ℤ → ℤ → RGBA

/-- The external PIL primitives used by the renderer, abstracted: the
renderer's own arithmetic and control flow are embedded concretely, while
glyph rasterization and pixel-level filters are oracle functions.  Fonts
are identified by their pixel size. -/
structure PILOracle where
  textlength : String → ℤ → ℚ
  textbbox : String → ℤ → ℚ × ℚ × ℚ × ℚ
  drawText : Layer → ℚ × ℚ → String → ℤ → RGBA → ℕ → Option RGBA → ℤ → ℤ → RGBA
  resizePix : Layer → ℤ → ℤ → ℤ → ℤ → RGBA
  blurPix : Layer → ℚ → ℤ → ℤ → RGBA
  pastePix : Layer → Layer → ℤ → ℤ → ℤ → ℤ → RGBA

/-- A trivial oracle instance (blank rasters, fixed 10×10 text boxes). -/
def trivOracle : PILOracle where
  textlength := fun _ _ => 0
  textbbox := fun _ _ => (0, 0, 10, 10)
  drawText := fun L _ _ _ _ _ _ => L.pix
  resizePix := fun L _ _ => L.pix
  blurPix := fun L _ => L.pix
  pastePix := fun F _ _ _ => F.pix

/-- `self.lyric_font = ImageFont.truetype(font_path, font_size)`. -/
def lyric_font (p : Params) : ℤ := p.font_size

/-- `self.meta_title_font`: size `int(font_size * 1.5)`. -/
def meta_title_font (p : Params) : ℤ := pyIntQ ((p.font_size : ℚ) * mkRat 3 2)

/-- `self.meta_info_font`: size `int(font_size * 0.8)`. -/
def meta_info_font (p : Params) : ℤ := pyIntQ ((p.font_size : ℚ) * mkRat 4 5)

/-- `get_current_line_index` loop (src lines 91-98): `idx` starts at `-1`;
each entry with `current_time >= line['time']` updates `idx` to its
position; the first later entry breaks the loop. -/
def gcliGo (t : ℚ) : List LyricLine → ℤ → ℤ → ℤ
  | [], _, idx => idx
  | line :: rest, i, idx => if t ≥ line.time then gcliGo t rest (i + 1) i else idx

/-- `FrameRenderer.get_current_line_index(current_time)` (src lines 91-98). -/
def get_current_line_index (lyrics : List LyricLine) (current_time : ℚ) : ℤ :=
  gcliGo current_time lyrics 0 (-1)

/-- `scale = max(0.1, 1.0 - (scale_decay * abs_dist))` (src line 224). -/
def scaleFor (p : Params) (dist_level : ℤ) : ℚ :=
  max (mkRat 1 10) (1 - p.scale_decay * (dist_level.natAbs : ℚ))

/-- `alpha = max(0, 255 - (fade_decay * abs_dist * 50))`, overridden to
`255` for the current line (src lines 227-228). -/
def alphaFor (p : Params) (dist_level : ℤ) : ℚ :=
  let a := max 0 (255 - p.fade_decay * (dist_level.natAbs : ℚ) * 50)
  if dist_level = 0 then 255 else a

/-- `blur = blur_base + blur_inc * abs_dist`, overridden to `0` for the
current line (src lines 231-232). -/
def blurFor (p : Params) (dist_level : ℤ) : ℚ :=
  let b := p.blur_base + p.blur_inc * (dist_level.natAbs : ℚ)
  if dist_level = 0 then 0 else b

/-- `scroll_area_top = margin_top + font_size * 4` with `margin_top = 40`
(src line 191). -/
def scroll_area_top (p : Params) : ℤ := 40 + p.font_size * 4

/-- `center_y = scroll_area_top + scroll_area_height // 2` where
`scroll_area_height = height - scroll_area_top - 50` (src lines 192-193);
Python `//` is floor division. -/
def center_y (p : Params) : ℤ :=
  scroll_area_top p + Int.fdiv (p.height - scroll_area_top p - 50) 2

/-- `y_pos = center_y + (dist_level * (font_size + line_spacing))`
(src line 235). -/
def yPosFor (p : Params) (dist_level : ℤ) : ℤ :=
  center_y p + dist_level * (p.font_size + p.line_spacing)

/-- `header_x` (src line 177): canvas midpoint for center alignment, a
50 px margin otherwise. -/
def header_x (p : Params) : ℤ :=
  match p.align with
  | Align.center => Int.fdiv p.width 2
  | Align.left => 50
  | Align.right => p.width - 50

/-- `FrameRenderer.draw_text_with_effects` (src lines 100-165): skip when
`alpha <= 5`; measure the text, build a padded transparent layer, draw the
optional shadow (at 60 % of the line alpha), then the glyph run with
optional stroke, resample when `scale != 1`, Gaussian-blur when
`blur_radius > 0`, and return the layer with its alignment-adjusted,
vertically centered paste position. -/
def draw_text_with_effects (o : PILOracle) (text : String) (x y : ℚ) (font : ℤ)
    (color : ℕ × ℕ × ℕ) (alpha : ℚ) (scale : ℚ) (blur_radius : ℚ) (align : Align)
    (shadow : ShadowCfg) (stroke : StrokeCfg) : Option (Layer × ℚ × ℚ) :=
  if alpha ≤ 5 then none
  else
    let (b0, b1, b2, b3) := o.textbbox text font
    let w := b2 - b0
    let h := b3 - b1
    let padding : ℚ := 20
    let temp_w : ℤ := pyIntQ (w + padding * 2)
    let temp_h : ℤ := pyIntQ (h + padding * 2)
    if temp_w ≤ 0 ∨ temp_h ≤ 0 then none
    else
      let txt_img : Layer := ⟨temp_w, temp_h, fun _ _ => ⟨0, 0, 0, 0⟩⟩
      let lx : ℚ := padding
      let ly : ℚ := padding
      let txt_img : Layer :=
        if shadow.enabled then
          let s_alpha := (pyIntQ (alpha * mkRat 3 5)).toNat
          let s_fill : RGBA := ⟨shadow.color.1, shadow.color.2.1, shadow.color.2.2, s_alpha⟩
          ⟨temp_w, temp_h, o.drawText txt_img (lx + (shadow.x : ℚ), ly + (shadow.y : ℚ)) text font s_fill 0 none⟩
        else txt_img
      let stroke_width : ℕ := if stroke.enabled then stroke.width else 0
      let stroke_fill : Option RGBA :=
        if stroke.enabled then
          some ⟨stroke.color.1, stroke.color.2.1, stroke.color.2.2, (pyIntQ alpha).toNat⟩
        else none
      let fill_color : RGBA := ⟨color.1, color.2.1, color.2.2, (pyIntQ alpha).toNat⟩
      let txt_img : Layer :=
        ⟨temp_w, temp_h, o.drawText txt_img (lx, ly) text font fill_color stroke_width stroke_fill⟩
      let txt_img : Layer :=
        if scale ≠ 1 then
          let new_w := pyIntQ ((temp_w : ℚ) * scale)
          let new_h := pyIntQ ((temp_h : ℚ) * scale)
          if 0 < new_w ∧ 0 < new_h then ⟨new_w, new_h, o.resizePix txt_img new_w new_h⟩
          else txt_img
        else txt_img
      let txt_img : Layer :=
        if 0 < blur_radius then ⟨txt_img.w, txt_img.h, o.blurPix txt_img blur_radius⟩
        else txt_img
      let dest_x : ℚ :=
        match align with
        | Align.center => x - ((Int.fdiv txt_img.w 2 : ℤ) : ℚ)
        | Align.right => x - (txt_img.w : ℚ)
        | Align.left => x
      let dest_y : ℚ := y - ((Int.fdiv txt_img.h 2 : ℤ) : ℚ)
      some (txt_img, dest_x, dest_y)

/-- The frame after the header block (src lines 171-188): a fully
transparent `width × height` canvas with the title (1.5× font, alpha 255)
and the "artist - album" info line (0.8× font, alpha 200) drawn onto it. -/
def headerFrame (o : PILOracle) (p : Params) : Layer :=
  let img : Layer := ⟨p.width, p.height, fun _ _ => ⟨0, 0, 0, 0⟩⟩
  let hx : ℚ := (header_x p : ℚ)
  let title_w := o.textlength p.meta_title (meta_title_font p)
  let tx : ℚ :=
    match p.align with
    | Align.center => hx - pyFloorDivQ title_w 2
    | Align.left => hx
    | Align.right => hx - title_w
  let title_fill : RGBA := ⟨p.font_color.1, p.font_color.2.1, p.font_color.2.2, 255⟩
  let img : Layer := ⟨img.w, img.h, o.drawText img (tx, 40) p.meta_title (meta_title_font p) title_fill 0 none⟩
  let info_text := p.meta_artist ++ " - " ++ p.meta_album
  let info_w := o.textlength info_text (meta_info_font p)
  let ix : ℚ :=
    match p.align with
    | Align.center => hx - pyFloorDivQ info_w 2
    | Align.left => hx
    | Align.right => hx - info_w
  let info_fill : RGBA := ⟨p.font_color.1, p.font_color.2.1, p.font_color.2.2, 200⟩
  ⟨img.w, img.h, o.drawText img (ix, (40 : ℚ) + ((p.font_size * 2 : ℤ) : ℚ)) info_text (meta_info_font p) info_fill 0 none⟩

/-- The render list (src lines 209-214): the centre entry `(curr_idx, 0)`
followed, for `i` from `1` to `visible_lines // 2 + 1`, by the in-bound
entries `(curr_idx - i, -i)` and `(curr_idx + i, i)`. -/
def render_list (p : Params) (lyrics : List LyricLine) (curr_idx : ℤ) : List (ℤ × ℤ) :=
  (curr_idx, 0) ::
    (List.range' 1 (p.visible_lines / 2 + 1)).flatMap (fun i =>
      (if 0 ≤ curr_idx - (i : ℤ) then [(curr_idx - (i : ℤ), -(i : ℤ))] else []) ++
      (if curr_idx + (i : ℤ) < (lyrics.length : ℤ) then [(curr_idx + (i : ℤ), (i : ℤ))] else []))

/-- One iteration of the render loop (src lines 216-245): skip
out-of-range indices, compute the per-line effect parameters, draw the
line, and paste the returned layer (masked by itself) when one is
produced. -/
def renderLine (o : PILOracle) (p : Params) (lyrics : List LyricLine) (img : Layer)
    (e : ℤ × ℤ) : Layer :=
  if e.1 < 0 ∨ (lyrics.length : ℤ) ≤ e.1 then img
  else
    let line_text := (lyrics.getD e.1.toNat ⟨0, ""⟩).text
    let scale := scaleFor p e.2
    let alpha := alphaFor p e.2
    let blur := blurFor p e.2
    let y_pos := yPosFor p e.2
    match draw_text_with_effects o line_text ((header_x p : ℤ) : ℚ) ((y_pos : ℤ) : ℚ)
        (lyric_font p) p.font_color alpha scale blur p.align p.shadow p.stroke with
    | none => img
    | some (res_img, dx, dy) =>
      ⟨img.w, img.h, o.pastePix img res_img (pyIntQ dx) (pyIntQ dy)⟩

/-- The frame obtained by running the render loop over a given render
list, starting from the header frame. -/
def renderFromList (o : PILOracle) (p : Params) (lyrics : List LyricLine)
    (rl : List (ℤ × ℤ)) : Layer :=
  rl.foldl (renderLine o p lyrics) (headerFrame o p)

/-- `FrameRenderer.render(current_time)` (src lines 167-247). -/
def render (o : PILOracle) (p : Params) (lyrics : List LyricLine) (current_time : ℚ) : Layer :=
  renderFromList o p lyrics (render_list p lyrics (get_current_line_index lyrics current_time))

/-! ## Export pipeline (`ExportThread`, src lines 252-336)

The worker thread is modelled as the list of observable events its `run`
method performs, in order: raw-frame writes to the ffmpeg pipe, progress
signal emissions, closing the pipe's write end, waiting for the
subprocess, and the terminal error/completion signals.  The cooperative
cancellation flag `self.is_running` is an oracle `running : ℕ → Bool`
giving the value observed by the check at the top of iteration `i`; the
subprocess exit code is a parameter. -/

/-- An observable action of `ExportThread.run`. -/
inductive ExportEvent where
  | write (bytes : List ℕ)
  | progress (pct : ℤ)
  | closeStdin
  | waitProc
  | errorSig (msg : String)
  | finishedSig (msg : String)
deriving DecidableEq

/-- `img.tobytes()`: the raw RGBA serialization of a layer, row-major,
4 bytes per pixel. -/
def toBytes (L : Layer) : List ℕ :=
  (List.range L.h.toNat).flatMap fun yy =>
    (List.range L.w.toNat).flatMap fun xx =>
      [(L.pix (xx : ℤ) (yy : ℤ)).r, (L.pix (xx : ℤ) (yy : ℤ)).g,
       (L.pix (xx : ℤ) (yy : ℤ)).b, (L.pix (xx : ℤ) (yy : ℤ)).a]

/-- `total_frames = int(duration * fps)` with `fps = 30` (src lines
268-270); `range` of a negative value is empty. -/
def total_frames (p : Params) : ℕ := (pyIntQ (p.duration * 30)).toNat

/-- The export loop (src lines 307-330), structured over the number of
remaining iterations `r` with current frame index `i`.  At each iteration
the flag is checked first: when cleared, the pipe is closed and the
subprocess awaited, with no terminal signal.  Otherwise the frame at
`t = i / fps` is rendered and written, and every tenth frame a progress
percentage is emitted.  After the final iteration the pipe is closed, the
subprocess awaited, and the error or completion signal emitted according
to its exit code. -/
def exportLoop (o : PILOracle) (p : Params) (lyrics : List LyricLine)
    (running : ℕ → Bool) (returncode : ℤ) (total : ℕ) : ℕ → ℕ → List ExportEvent
  | 0, _ =>
    [ExportEvent.closeStdin, ExportEvent.waitProc,
      if returncode ≠ 0 then ExportEvent.errorSig "FFmpeg Error: Export failed (Unknown error)."
      else ExportEvent.finishedSig "Export Complete!"]
  | r + 1, i =>
    if running i then
      ExportEvent.write (toBytes (render o p lyrics ((i : ℚ) / 30))) ::
        ((if i % 10 = 0 then [ExportEvent.progress (pyIntQ ((i : ℚ) / (total : ℚ) * 100))] else []) ++
          exportLoop o p lyrics running returncode total r (i + 1))
    else [ExportEvent.closeStdin, ExportEvent.waitProc]

/-- `ExportThread.run` (src lines 264-333) as its event trace. -/
def ExportThread.run (o : PILOracle) (p : Params) (lyrics : List LyricLine)
    (running : ℕ → Bool) (returncode : ℤ) : List ExportEvent :=
  exportLoop o p lyrics running returncode (total_frames p) (total_frames p) 0

/-- The frame buffers written to the pipe, in order. -/
def writesOf (evs : List ExportEvent) : List (List ℕ) :=
  evs.filterMap fun e =>
    match e with
    | ExportEvent.write bs => some bs
    | _ => none

/-! ## Claims -/

/-- C1: for every rendered lyric line at absolute distance `d` from the
active line, the renderer computes `scale = max(0.1, 1 - scale_decay*d)`,
`alpha = max(0, 255 - fade_decay*d*50)` with alpha forced to 255 when
`d = 0`, and `blur = blur_base + blur_increment*d` with blur forced to 0
when `d = 0` (these are the values `renderLine` passes to
`draw_text_with_effects` for the entry at signed distance `dist_level`,
`d = |dist_level|`). -/
theorem claim_C1_per_line_parameters (p : Params) (dist_level : ℤ) :
    scaleFor p dist_level = max (mkRat 1 10) (1 - p.scale_decay * (dist_level.natAbs : ℚ)) ∧
    alphaFor p dist_level = max 0 (255 - p.fade_decay * (dist_level.natAbs : ℚ) * 50) ∧
    alphaFor p 0 = 255 ∧
    blurFor p dist_level =
      (if dist_level = 0 then 0 else p.blur_base + p.blur_inc * (dist_level.natAbs : ℚ)) ∧
    blurFor p 0 = 0 := by
  refine ⟨rfl, ?_, by simp [alphaFor], rfl, by simp [blurFor]⟩
  unfold alphaFor
  rcases eq_or_ne dist_level 0 with h | h
  · subst h
    simp only [Int.natAbs_zero, Nat.cast_zero, mul_zero, zero_mul, sub_zero, if_pos rfl]
    rw [max_eq_right (by norm_num : (0 : ℚ) ≤ 255)]
    simp
  · simp [h]

/-- C3 (counterexample): the claimed formula
`center_y + sign(distance)·distance·(font_size + line_spacing)` equals
`center_y + |distance|·(...)` and so disagrees with the code's
`center_y + dist_level·(...)` for the line directly above the active one
(`distance = -1`) under the default parameters. -/
theorem claim_C3_counterexample :
    ¬ (yPosFor defaultParams (-1) =
        center_y defaultParams +
          Int.sign (-1) * (-1) * (defaultParams.font_size + defaultParams.line_spacing)) := by
  decide

/-- C3 (amended): the vertical position of the rendered line at signed
distance `dist` is `center_y + dist * (font_size + line_spacing)` — the
signed distance itself, not `sign(distance)·distance` — where `center_y`
is the floor midpoint of the scrollable region below the header
(`scroll_area_top = 40 + 4·font_size`, bottom margin 50). -/
theorem claim_C3_vertical_position (p : Params) (dist : ℤ) :
    yPosFor p dist =
      ((40 + p.font_size * 4) + Int.fdiv (p.height - (40 + p.font_size * 4) - 50) 2) +
        dist * (p.font_size + p.line_spacing) := rfl

/-- C9: an empty path or a path that does not refer to an existing file
makes `parse` return the empty sequence (the embedding is a total
function: no exception is possible on this path). -/
theorem claim_C9_missing_file (path : String) (fs : List (String × List String))
    (h : path = "" ∨ fs.lookup path = none) :
    LrcParser.parse path fs = [] := by
  unfold LrcParser.parse parsedEntries
  rw [if_pos h]
  rfl

/-- C9 witness: the empty path on an empty file system. -/
theorem claim_C9_witness : LrcParser.parse "" [] = [] :=
  claim_C9_missing_file "" [] (Or.inl rfl)

/-- The `get_current_line_index` scan equals the length of the satisfied
prefix, offset by the starting accumulator: scanning with counter `i + 1`
and best-so-far `i` returns `i` plus the length of the longest prefix
whose timestamps are `≤ t` (the loop breaks at the first later entry). -/
lemma gcliGo_eq (t : ℚ) :
    ∀ (ls : List LyricLine) (i : ℤ),
      gcliGo t ls (i + 1) i =
        i + ((ls.takeWhile fun l => decide (l.time ≤ t)).length : ℤ)
  | [], i => by simp [gcliGo]
  | l :: ls, i => by
    unfold gcliGo
    by_cases h : l.time ≤ t
    · rw [if_pos (show t ≥ l.time from h), List.takeWhile_cons_of_pos (by simpa using h)]
      have ih := gcliGo_eq t ls (i + 1)
      rw [ih]
      simp only [List.length_cons]
      push_cast
      ring
    · rw [if_neg (show ¬ t ≥ l.time from h), List.takeWhile_cons_of_neg (by simpa using h)]
      simp

/-- In a track sorted ascending by timestamp, the entry at position `i`
has timestamp `≤ t` exactly when `i` lies inside the satisfied prefix. -/
lemma sorted_takeWhile_iff (t : ℚ) :
    ∀ (ls : List LyricLine), List.Pairwise (fun a b => a.time ≤ b.time) ls →
      ∀ (i : ℕ) (h : i < ls.length),
        ((ls.get ⟨i, h⟩).time ≤ t ↔
          i < (ls.takeWhile fun l => decide (l.time ≤ t)).length)
  | [], _, i, h => absurd h (by simp)
  | a :: ls, hs, i, h => by
    rw [List.pairwise_cons] at hs
    by_cases ha : a.time ≤ t
    · rw [List.takeWhile_cons_of_pos (by simpa using ha)]
      match i with
      | 0 => simpa using ha
      | j + 1 =>
        have := sorted_takeWhile_iff t ls hs.2 j (by simpa using h)
        simpa [List.get] using this
    · rw [List.takeWhile_cons_of_neg (by simpa using ha)]
      match i with
      | 0 => simpa using ha
      | j + 1 =>
        simp only [List.length_nil, Nat.not_lt_zero, iff_false, List.get]
        intro hle
        exact ha (le_trans (hs.1 _ (ls.get_mem _ _)) hle)

/-- C4: on a track sorted ascending by timestamp, `get_current_line_index`
returns an index in `[-1, length)` and, for every position `i`, the entry
at `i` has timestamp `≤ t` exactly when `i` is at most the returned index
— i.e. the result is the greatest index whose timestamp is `≤ t`, and
`-1` when there is none (in particular on the empty track). -/
theorem claim_C4_active_line_index (lyrics : List LyricLine) (t : ℚ)
    (hs : List.Pairwise (fun a b => a.time ≤ b.time) lyrics) :
    -1 ≤ get_current_line_index lyrics t ∧
    get_current_line_index lyrics t < (lyrics.length : ℤ) ∧
    ∀ (i : ℕ) (h : i < lyrics.length),
      ((lyrics.get ⟨i, h⟩).time ≤ t ↔ (i : ℤ) ≤ get_current_line_index lyrics t) := by
  have hg : get_current_line_index lyrics t =
      -1 + ((lyrics.takeWhile fun l => decide (l.time ≤ t)).length : ℤ) := by
    unfold get_current_line_index
    have := gcliGo_eq t lyrics (-1)
    norm_num at this
    exact this
  have hlen : (lyrics.takeWhile fun l => decide (l.time ≤ t)).length ≤ lyrics.length :=
    (List.takeWhile_sublist _).length_le
  refine ⟨by rw [hg]; omega, by rw [hg]; omega, fun i h => ?_⟩
  rw [hg, sorted_takeWhile_iff t lyrics hs i h]
  omega

/-- C4 witness: the example track `[(0,"a"),(2,"b"),(5,"c")]` at query
times `1`, `2`, `5.5` and `-1`, plus an application of the theorem. -/
theorem claim_C4_witness :
    (get_current_line_index [⟨0, "a"⟩, ⟨2, "b"⟩, ⟨5, "c"⟩] 1 = 0 ∧
     get_current_line_index [⟨0, "a"⟩, ⟨2, "b"⟩, ⟨5, "c"⟩] 2 = 1 ∧
     get_current_line_index [⟨0, "a"⟩, ⟨2, "b"⟩, ⟨5, "c"⟩] (mkRat 11 2) = 2 ∧
     get_current_line_index [⟨0, "a"⟩, ⟨2, "b"⟩, ⟨5, "c"⟩] (-1) = -1) ∧
    -1 ≤ get_current_line_index [⟨0, "a"⟩, ⟨2, "b"⟩, ⟨5, "c"⟩] (mkRat 11 2) :=
  ⟨by with_unfolding_all decide,
    (claim_C4_active_line_index [⟨0, "a"⟩, ⟨2, "b"⟩, ⟨5, "c"⟩] (mkRat 11 2)
      (by with_unfolding_all decide)).1⟩

/-- Filtering one timestamp class through an ordered insert: the inserted
entry lands at the head of its class (elements it is placed after belong
to strictly earlier classes). -/
lemma filter_orderedInsert (q : ℚ) (x : LyricLine) :
    ∀ l : List LyricLine,
      (List.orderedInsert timeLE x l).filter (fun y => decide (y.time = q)) =
        if x.time = q then x :: l.filter (fun y => decide (y.time = q))
        else l.filter (fun y => decide (y.time = q))
  | [] => by
    by_cases h : x.time = q <;> simp [List.orderedInsert, h]
  | y :: l => by
    by_cases hxy : timeLE x y
    · rw [List.orderedInsert, if_pos hxy]
      by_cases hx : x.time = q <;> simp [List.filter_cons, hx]
    · rw [List.orderedInsert, if_neg hxy]
      have hyx : y.time < x.time := lt_of_not_le hxy
      by_cases hy : y.time = q
      · have hx : ¬ x.time = q := fun hx => absurd (hx.trans hy.symm) (ne_of_gt hyx)
        simp [List.filter_cons, hy, hx, filter_orderedInsert q x l]
      · by_cases hx : x.time = q <;>
          simp [List.filter_cons, hy, hx, filter_orderedInsert q x l]

/-- Stability of the insertion sort: each timestamp class of the output
is the corresponding class of the input, in the input's order. -/
lemma filter_insertionSort (q : ℚ) :
    ∀ l : List LyricLine,
      (List.insertionSort timeLE l).filter (fun y => decide (y.time = q)) =
        l.filter (fun y => decide (y.time = q))
  | [] => rfl
  | a :: l => by
    rw [List.insertionSort, filter_orderedInsert]
    by_cases h : a.time = q <;> simp [List.filter_cons, h, filter_insertionSort q l]

/-- C6: the sequence returned by `parse` is sorted ascending by computed
timestamp for every input, and every timestamp class appears in the
output exactly as it appears in the pre-sort entry list (so entries with
equal timestamps preserve their original relative order). -/
theorem claim_C6_sorted_stable (path : String) (fs : List (String × List String)) :
    List.Pairwise timeLE (LrcParser.parse path fs) ∧
    ∀ q : ℚ,
      (LrcParser.parse path fs).filter (fun y => decide (y.time = q)) =
        (parsedEntries path fs).filter (fun y => decide (y.time = q)) :=
  ⟨List.sorted_insertionSort timeLE (parsedEntries path fs),
    fun q => filter_insertionSort q (parsedEntries path fs)⟩

/-- C10: every entry produced by `parse` has non-empty text (a line whose
text is empty after stripping the tag is dropped, never appended) and a
nonnegative timestamp. -/
theorem claim_C10_entry_invariant (path : String) (fs : List (String × List String))
    (l : LyricLine) (hl : l ∈ LrcParser.parse path fs) :
    l.text ≠ "" ∧ 0 ≤ l.time := by
  rw [LrcParser.parse, List.mem_insertionSort] at hl
  unfold parsedEntries at hl
  split at hl
  · exact absurd hl (by simp)
  · rw [List.mem_filterMap] at hl
    obtain ⟨line, _, hpl⟩ := hl
    unfold parseLine at hpl
    dsimp only at hpl
    rcases hsearch : searchTag (pyStrip line.toList) with _ | ⟨mm, ss, ms_val⟩
    · rw [hsearch] at hpl
      exact absurd hpl (by simp)
    · rw [hsearch] at hpl
      dsimp only at hpl
      by_cases htext : pyStrip (subTags (pyStrip line.toList)) = []
      · rw [if_pos htext] at hpl
        exact absurd hpl (by simp)
      · rw [if_neg htext] at hpl
        obtain rfl := (Option.some.injEq _ _).mp hpl
        refine ⟨fun h => htext ?_, ?_⟩
        · simpa using congrArg String.data h
        · unfold tsec
          positivity

/-- C10 witness: a file whose first line parses to the entry
`(1.5, "Hi")`, whose second line carries a tag but no text (and is
dropped), and whose third line has no tag. -/
theorem claim_C10_witness :
    LrcParser.parse "a.lrc" [("a.lrc", ["[00:01.50]Hi", "[00:02.00]", "junk"])] =
      [⟨tsec 0 1 500, "Hi"⟩] ∧
    ((⟨tsec 0 1 500, "Hi"⟩ : LyricLine).text ≠ "" ∧
      0 ≤ (⟨tsec 0 1 500, "Hi"⟩ : LyricLine).time) :=
  ⟨by with_unfolding_all rfl,
    claim_C10_entry_invariant "a.lrc" [("a.lrc", ["[00:01.50]Hi", "[00:02.00]", "junk"])]
      ⟨tsec 0 1 500, "Hi"⟩
      (by
        rw [show LrcParser.parse "a.lrc" [("a.lrc", ["[00:01.50]Hi", "[00:02.00]", "junk"])] =
            [⟨tsec 0 1 500, "Hi"⟩] from by with_unfolding_all rfl]
        exact List.mem_singleton.mpr rfl)⟩

/-- Character-step lemma: an expected literal at the head is consumed. -/
lemma expectChar_cons_self (ch : Char) (cs : List Char) : expectChar ch (ch :: cs) = some cs := by
  simp [expectChar]

/-- Character-step lemma: a digit at the head is consumed. -/
lemma expectDigit_cons_pos {c : Char} (h : c.isDigit = true) (cs : List Char) :
    expectDigit (c :: cs) = some (digitVal c, cs) := by simp [expectDigit, h]

/-- Character-step lemma: `]` is not a digit. -/
lemma expectDigit_rbracket (cs : List Char) : expectDigit (']' :: cs) = none := rfl

/-- The decimal value of a digit string (what `int(...)` computes on the
matched group). -/
def digitsVal (ds : List Char) : ℕ := ds.foldl (fun acc c => 10 * acc + digitVal c) 0

/-- C5: a well-formed tagged line `[MM:SS.ff]text` or `[MM:SS.fff]text`
parses to the groups `(MM, SS, ms)` where a 2-digit fractional field is
scaled by 10 into milliseconds and a 3-digit one is taken as-is, and the
resulting timestamp is `MM*60 + SS + ms/1000` seconds. -/
theorem claim_C5_timestamp (m1 m2 s1 s2 : Char) (frac rest : List Char)
    (hm1 : m1.isDigit = true) (hm2 : m2.isDigit = true)
    (hs1 : s1.isDigit = true) (hs2 : s2.isDigit = true)
    (hf : ∀ c ∈ frac, c.isDigit = true)
    (hlen : frac.length = 2 ∨ frac.length = 3) :
    searchTag ('[' :: m1 :: m2 :: ':' :: s1 :: s2 :: '.' :: (frac ++ ']' :: rest)) =
      some (10 * digitVal m1 + digitVal m2, 10 * digitVal s1 + digitVal s2,
        digitsVal frac * (if frac.length = 2 then 10 else 1)) ∧
    tsec (10 * digitVal m1 + digitVal m2) (10 * digitVal s1 + digitVal s2)
        (digitsVal frac * (if frac.length = 2 then 10 else 1)) =
      ((10 * digitVal m1 + digitVal m2 : ℕ) : ℚ) * 60 +
        ((10 * digitVal s1 + digitVal s2 : ℕ) : ℚ) +
        ((digitsVal frac * (if frac.length = 2 then 10 else 1) : ℕ) : ℚ) / 1000 := by
  refine ⟨?_, rfl⟩
  rcases hlen with h2 | h3
  · obtain ⟨a, b, rfl⟩ := List.length_eq_two.mp h2
    have ha : a.isDigit = true := hf a (by simp)
    have hb : b.isDigit = true := hf b (by simp)
    have step : tagAt ('[' :: m1 :: m2 :: ':' :: s1 :: s2 :: '.' :: ([a, b] ++ ']' :: rest)) =
        some ((10 * digitVal m1 + digitVal m2, 10 * digitVal s1 + digitVal s2,
          (10 * digitVal a + digitVal b) * 10), rest) := by
      simp only [List.cons_append, List.nil_append, tagAt, threeDigitTail,
        expectChar_cons_self, expectDigit_cons_pos hm1, expectDigit_cons_pos hm2,
        expectDigit_cons_pos hs1, expectDigit_cons_pos hs2,
        expectDigit_cons_pos ha, expectDigit_cons_pos hb, expectDigit_rbracket]
    simp only [searchTag, List.cons_append, List.nil_append] at step ⊢
    rw [step]
    simp [digitsVal]
  · obtain ⟨a, b, c, rfl⟩ := List.length_eq_three.mp h3
    have ha : a.isDigit = true := hf a (by simp)
    have hb : b.isDigit = true := hf b (by simp)
    have hc : c.isDigit = true := hf c (by simp)
    have step : tagAt ('[' :: m1 :: m2 :: ':' :: s1 :: s2 :: '.' :: ([a, b, c] ++ ']' :: rest)) =
        some ((10 * digitVal m1 + digitVal m2, 10 * digitVal s1 + digitVal s2,
          100 * digitVal a + 10 * digitVal b + digitVal c), rest) := by
      simp only [List.cons_append, List.nil_append, tagAt, threeDigitTail,
        expectChar_cons_self, expectDigit_cons_pos hm1, expectDigit_cons_pos hm2,
        expectDigit_cons_pos hs1, expectDigit_cons_pos hs2,
        expectDigit_cons_pos ha, expectDigit_cons_pos hb, expectDigit_cons_pos hc]
    simp only [searchTag, List.cons_append, List.nil_append] at step ⊢
    rw [step]
    simp [digitsVal]
    ring

/-- C5 witness: the theorem applied to `[01:02.50]Hello`, together with
the spec's two end-to-end examples: `[01:02.50]Hello` parses to
`(62.5 s, "Hello")` and `[00:00.123]Hi` parses to `(0.123 s, "Hi")`. -/
theorem claim_C5_witness :
    searchTag ('[' :: '0' :: '1' :: ':' :: '0' :: '2' :: '.' :: (['5', '0'] ++ ']' :: "Hello".toList)) =
      some (10 * digitVal '0' + digitVal '1', 10 * digitVal '0' + digitVal '2',
        digitsVal ['5', '0'] * (if (['5', '0'] : List Char).length = 2 then 10 else 1)) ∧
    (parseLine "[01:02.50]Hello" = some ⟨tsec 1 2 500, "Hello"⟩ ∧
      tsec 1 2 500 = mkRat 125 2 ∧
      parseLine "[00:00.123]Hi" = some ⟨tsec 0 0 123, "Hi"⟩ ∧
      tsec 0 0 123 = mkRat 123 1000) :=
  ⟨(claim_C5_timestamp '0' '1' '0' '2' ['5', '0'] "Hello".toList rfl rfl rfl rfl
      (by decide) (Or.inl rfl)).1,
    by with_unfolding_all exact ⟨rfl, rfl, rfl, rfl⟩⟩

/-- A render-loop iteration whose computed alpha is at most 5 leaves the
frame untouched. -/
lemma renderLine_of_alpha_le (o : PILOracle) (p : Params) (lyrics : List LyricLine)
    (idx dist : ℤ) (h : alphaFor p dist ≤ 5) (B : Layer) :
    renderLine o p lyrics B (idx, dist) = B := by
  unfold renderLine
  dsimp only
  by_cases hb : idx < 0 ∨ (lyrics.length : ℤ) ≤ idx
  · rw [if_pos hb]
  · rw [if_neg hb]
    rw [show draw_text_with_effects o (lyrics.getD idx.toNat ⟨0, ""⟩).text
        ((header_x p : ℤ) : ℚ) ((yPosFor p dist : ℤ) : ℚ) (lyric_font p) p.font_color
        (alphaFor p dist) (scaleFor p dist) (blurFor p dist) p.align p.shadow p.stroke = none
      from by unfold draw_text_with_effects; rw [if_pos h]]

/-- C7: a line whose computed alpha is at most 5 is skipped entirely —
`draw_text_with_effects` returns no layer for it, and the composited frame
is identical to the frame rendered without that line, so the pixels at
that line's position stay exactly as the other drawing steps leave them
(fully transparent when nothing else covers them). -/
theorem claim_C7_visibility_cutoff (o : PILOracle) (p : Params) (lyrics : List LyricLine)
    (idx dist : ℤ) (l₁ l₂ : List (ℤ × ℤ)) (h : alphaFor p dist ≤ 5) :
    (∀ (text : String) (x y : ℚ) (font : ℤ) (color : ℕ × ℕ × ℕ) (scale blur : ℚ)
        (al : Align) (sh : ShadowCfg) (st : StrokeCfg),
      draw_text_with_effects o text x y font color (alphaFor p dist) scale blur al sh st = none) ∧
    renderFromList o p lyrics (l₁ ++ (idx, dist) :: l₂) = renderFromList o p lyrics (l₁ ++ l₂) := by
  constructor
  · intro text x y font color scale blur al sh st
    unfold draw_text_with_effects
    rw [if_pos h]
  · unfold renderFromList
    rw [List.foldl_append, List.foldl_append, List.foldl_cons,
      renderLine_of_alpha_le o p lyrics idx dist h]

/-- C7 witness: under the default parameters, the line at distance 10 has
computed alpha exactly 5 and contributes nothing to the frame. -/
theorem claim_C7_witness :
    renderFromList trivOracle defaultParams [] [(0, 10)] =
      renderFromList trivOracle defaultParams [] [] :=
  (claim_C7_visibility_cutoff trivOracle defaultParams [] 0 10 [] []
    (by with_unfolding_all decide)).2

/-! ### Export-loop lemmas -/

lemma writesOf_nil : writesOf [] = [] := rfl

lemma writesOf_cons_write (bs : List ℕ) (l : List ExportEvent) :
    writesOf (ExportEvent.write bs :: l) = bs :: writesOf l := by simp [writesOf]

lemma writesOf_cons_progress (pct : ℤ) (l : List ExportEvent) :
    writesOf (ExportEvent.progress pct :: l) = writesOf l := by simp [writesOf]

lemma writesOf_append (l₁ l₂ : List ExportEvent) :
    writesOf (l₁ ++ l₂) = writesOf l₁ ++ writesOf l₂ := by
  simp [writesOf, List.filterMap_append]

/-- The close / wait / terminal-signal tail writes no frames. -/
lemma writesOf_tail (rc : ℤ) :
    writesOf [ExportEvent.closeStdin, ExportEvent.waitProc,
      if rc ≠ 0 then ExportEvent.errorSig "FFmpeg Error: Export failed (Unknown error)."
      else ExportEvent.finishedSig "Export Complete!"] = [] := by
  by_cases hrc : rc ≠ 0 <;> simp [writesOf, hrc]

/-- With the flag always set, iterations `i, …, i+r-1` write exactly the
frames rendered at `j / 30` for `j` in that range, in order. -/
lemma writesOf_exportLoop_all (o : PILOracle) (p : Params) (lyrics : List LyricLine)
    (running : ℕ → Bool) (rc : ℤ) (total : ℕ) (hrun : ∀ i, running i = true) :
    ∀ (r i : ℕ), writesOf (exportLoop o p lyrics running rc total r i) =
      (List.range' i r).map (fun j : ℕ => toBytes (render o p lyrics ((j : ℚ) / 30)))
  | 0, i => by rw [exportLoop, writesOf_tail]; rfl
  | r + 1, i => by
    rw [exportLoop, hrun i, if_pos rfl, List.range'_succ, List.map_cons]
    by_cases hten : i % 10 = 0
    · rw [if_pos hten, List.singleton_append, writesOf_cons_write, writesOf_cons_progress,
        writesOf_exportLoop_all o p lyrics running rc total hrun r (i + 1)]
    · rw [if_neg hten, List.nil_append, writesOf_cons_write,
        writesOf_exportLoop_all o p lyrics running rc total hrun r (i + 1)]

lemma length_flatMap_const {α β : Type} (l : List α) (f : α → List β) (k : ℕ)
    (h : ∀ a ∈ l, (f a).length = k) : (l.flatMap f).length = l.length * k := by
  induction l with
  | nil => simp
  | cons a l ih =>
    rw [List.flatMap_cons, List.length_append, h a (by simp), List.length_cons,
      ih (fun a ha => h a (by simp [ha]))]
    ring

/-- `img.tobytes()` of a `w × h` RGBA raster is exactly `w*h*4` bytes. -/
lemma toBytes_length (L : Layer) : (toBytes L).length = L.w.toNat * L.h.toNat * 4 := by
  unfold toBytes
  have hrow : ∀ yy ∈ List.range L.h.toNat,
      ((List.range L.w.toNat).flatMap fun xx =>
        [(L.pix (xx : ℤ) (yy : ℤ)).r, (L.pix (xx : ℤ) (yy : ℤ)).g,
         (L.pix (xx : ℤ) (yy : ℤ)).b, (L.pix (xx : ℤ) (yy : ℤ)).a]).length = L.w.toNat * 4 := by
    intro yy _
    have h4 : ∀ xx ∈ List.range L.w.toNat,
        ([(L.pix (xx : ℤ) (yy : ℤ)).r, (L.pix (xx : ℤ) (yy : ℤ)).g,
          (L.pix (xx : ℤ) (yy : ℤ)).b, (L.pix (xx : ℤ) (yy : ℤ)).a] : List ℕ).length = 4 :=
      fun _ _ => rfl
    rw [length_flatMap_const _ _ 4 h4, List.length_range]
  rw [length_flatMap_const _ _ (L.w.toNat * 4) hrow, List.length_range]
  ring

/-- A render-loop iteration never changes the frame's dimensions. -/
lemma renderLine_size (o : PILOracle) (p : Params) (lyrics : List LyricLine)
    (B : Layer) (e : ℤ × ℤ) :
    (renderLine o p lyrics B e).w = B.w ∧ (renderLine o p lyrics B e).h = B.h := by
  unfold renderLine
  split
  · exact ⟨rfl, rfl⟩
  · dsimp only
    split
    · exact ⟨rfl, rfl⟩
    · exact ⟨rfl, rfl⟩

lemma foldl_renderLine_size (o : PILOracle) (p : Params) (lyrics : List LyricLine) :
    ∀ (rl : List (ℤ × ℤ)) (B : Layer),
      ((rl.foldl (renderLine o p lyrics) B).w = B.w ∧ (rl.foldl (renderLine o p lyrics) B).h = B.h)
  | [], _ => ⟨rfl, rfl⟩
  | e :: rl, B => by
    rw [List.foldl_cons]
    have h1 := renderLine_size o p lyrics B e
    have h2 := foldl_renderLine_size o p lyrics rl (renderLine o p lyrics B e)
    exact ⟨h2.1.trans h1.1, h2.2.trans h1.2⟩

/-- A rendered frame has exactly the configured canvas dimensions. -/
lemma render_size (o : PILOracle) (p : Params) (lyrics : List LyricLine) (t : ℚ) :
    (render o p lyrics t).w = p.width ∧ (render o p lyrics t).h = p.height := by
  unfold render renderFromList
  exact foldl_renderLine_size o p lyrics
    (render_list p lyrics (get_current_line_index lyrics t)) (headerFrame o p)

/-- A small parameter set for concrete export runs: 1×1 canvas, 1 s. -/
def pSmall : Params := { defaultParams with width := 1, height := 1, duration := 1 }

/-- The default parameters with the fractional duration 0.65 s, where
`int(D*30) = 19` but `round(D*30) = 20`. -/
def pFrac : Params := { defaultParams with duration := mkRat 13 20 }

/-- C2 (amended): for every export job, the loop writes exactly
`int(D*30)` frames (truncation — not `round(D*30)`, see the
counterexample; the two agree whenever `D*30` is an integer, in
particular for the integer durations the UI supplies), frame `i` being
the serialized render at `t = i/30`, and every written frame is exactly
`width*height*4` bytes. -/
theorem claim_C2_export_frames (o : PILOracle) (p : Params) (lyrics : List LyricLine) (rc : ℤ)
    (running : ℕ → Bool) (hrun : ∀ i, running i = true) :
    writesOf (ExportThread.run o p lyrics running rc) =
      (List.range (total_frames p)).map (fun i : ℕ => toBytes (render o p lyrics ((i : ℚ) / 30))) ∧
    (writesOf (ExportThread.run o p lyrics running rc)).length = (pyIntQ (p.duration * 30)).toNat ∧
    ∀ bs ∈ writesOf (ExportThread.run o p lyrics running rc),
      bs.length = p.width.toNat * p.height.toNat * 4 := by
  have hmain : writesOf (ExportThread.run o p lyrics running rc) =
      (List.range (total_frames p)).map (fun i : ℕ => toBytes (render o p lyrics ((i : ℚ) / 30))) := by
    unfold ExportThread.run
    rw [writesOf_exportLoop_all o p lyrics running rc (total_frames p) hrun (total_frames p) 0,
      ← List.range_eq_range']
  refine ⟨hmain, ?_, ?_⟩
  · rw [hmain, List.length_map, List.length_range]; rfl
  · intro bs hbs
    rw [hmain] at hbs
    obtain ⟨i, _, rfl⟩ := List.mem_map.mp hbs
    rw [toBytes_length, (render_size o p lyrics _).1, (render_size o p lyrics _).2]

/-- C2 (counterexample): at duration 0.65 s the loop writes
`int(0.65*30) = 19` frames, not `round(0.65*30) = 20` as the claim
states. -/
theorem claim_C2_counterexample :
    ¬ ((writesOf (ExportThread.run trivOracle pFrac [] (fun _ => true) 0)).length =
        (pyRound (pFrac.duration * 30)).toNat) := by
  intro hcontra
  unfold ExportThread.run at hcontra
  rw [writesOf_exportLoop_all trivOracle pFrac [] (fun _ => true) 0 (total_frames pFrac)
      (fun _ => rfl) (total_frames pFrac) 0, List.length_map, List.length_range'] at hcontra
  have h1 : total_frames pFrac = 19 := by with_unfolding_all rfl
  have h2 : (pyRound (pFrac.duration * 30)).toNat = 20 := by with_unfolding_all rfl
  rw [h1, h2] at hcontra
  exact absurd hcontra (by decide)

/-- C2 witness: an uncancelled 1-second export writes `int(1*30)` frames. -/
theorem claim_C2_witness :
    (writesOf (ExportThread.run trivOracle pSmall [] (fun _ => true) 0)).length =
      (pyIntQ (pSmall.duration * 30)).toNat :=
  (claim_C2_export_frames trivOracle pSmall [] 0 (fun _ => true) (fun _ => rfl)).2.1

/-- Once the flag is permanently cleared from index `k` on, the loop
starting at `i ≤ k` writes at most `k - i` more frames. -/
lemma writesOf_exportLoop_le (o : PILOracle) (p : Params) (lyrics : List LyricLine)
    (running : ℕ → Bool) (rc : ℤ) (total k : ℕ)
    (hrun : ∀ j, k ≤ j → running j = false) :
    ∀ (r i : ℕ), i ≤ k → (writesOf (exportLoop o p lyrics running rc total r i)).length + i ≤ k
  | 0, i, hik => by rw [exportLoop, writesOf_tail]; simpa using hik
  | r + 1, i, hik => by
    rw [exportLoop]
    by_cases hri : running i = true
    · have hik2 : i < k := by
        by_contra hki
        rw [hrun i (Nat.le_of_not_lt hki)] at hri
        exact Bool.false_ne_true hri
      rw [hri, if_pos rfl]
      have ih := writesOf_exportLoop_le o p lyrics running rc total k hrun r (i + 1) hik2
      by_cases hten : i % 10 = 0
      · rw [if_pos hten, List.singleton_append, writesOf_cons_write, writesOf_cons_progress]
        simp only [List.length_cons]
        omega
      · rw [if_neg hten, List.nil_append, writesOf_cons_write]
        simp only [List.length_cons]
        omega
    · have hf : running i = false := by revert hri; cases running i <;> simp
      rw [hf, if_neg Bool.false_ne_true]
      simpa [writesOf] using hik

/-- Once the flag is permanently cleared from index `k` on and the loop
still has an iteration at or beyond `k` to run, the trace ends with
closing the pipe and waiting on the subprocess, and carries no terminal
completion or error signal. -/
lemma exportLoop_cancel_shape (o : PILOracle) (p : Params) (lyrics : List LyricLine)
    (running : ℕ → Bool) (rc : ℤ) (total k : ℕ)
    (hrun : ∀ j, k ≤ j → running j = false) :
    ∀ (r i : ℕ), i ≤ k → k < i + r →
      (∃ pre, exportLoop o p lyrics running rc total r i =
        pre ++ [ExportEvent.closeStdin, ExportEvent.waitProc]) ∧
      ∀ msg, ExportEvent.finishedSig msg ∉ exportLoop o p lyrics running rc total r i ∧
        ExportEvent.errorSig msg ∉ exportLoop o p lyrics running rc total r i
  | 0, i, hik, hkir => absurd hkir (by omega)
  | r + 1, i, hik, hkir => by
    rw [exportLoop]
    by_cases hri : running i = true
    · have hik2 : i < k := by
        by_contra hki
        rw [hrun i (Nat.le_of_not_lt hki)] at hri
        exact Bool.false_ne_true hri
      rw [hri, if_pos rfl]
      obtain ⟨⟨pre, hpre⟩, hmsg⟩ :=
        exportLoop_cancel_shape o p lyrics running rc total k hrun r (i + 1) hik2 (by omega)
      constructor
      · refine ⟨ExportEvent.write (toBytes (render o p lyrics ((i : ℚ) / 30))) ::
          ((if i % 10 = 0 then [ExportEvent.progress (pyIntQ ((i : ℚ) / (total : ℚ) * 100))]
            else []) ++ pre), ?_⟩
        rw [hpre]
        simp [List.append_assoc]
      · intro msg
        by_cases hten : i % 10 = 0 <;>
          simp [hten, List.mem_cons, List.mem_append, (hmsg msg).1, (hmsg msg).2]
    · have hf : running i = false := by revert hri; cases running i <;> simp
      rw [hf, if_neg Bool.false_ne_true]
      exact ⟨⟨[], rfl⟩, fun msg => by simp⟩

/-- C8: if the cancellation flag is cleared before the loop starts frame
`k` (and stays cleared), at most `k` frames are written in total, the
trace ends by closing the pipe's write end and waiting for the subprocess
to exit, and neither a completion nor an error notification is emitted. -/
theorem claim_C8_cancellation (o : PILOracle) (p : Params) (lyrics : List LyricLine) (rc : ℤ)
    (running : ℕ → Bool) (k : ℕ)
    (hk : k < total_frames p) (hrun : ∀ j, k ≤ j → running j = false) :
    (writesOf (ExportThread.run o p lyrics running rc)).length ≤ k ∧
    (∃ pre, ExportThread.run o p lyrics running rc =
      pre ++ [ExportEvent.closeStdin, ExportEvent.waitProc]) ∧
    ∀ msg, ExportEvent.finishedSig msg ∉ ExportThread.run o p lyrics running rc ∧
      ExportEvent.errorSig msg ∉ ExportThread.run o p lyrics running rc := by
  have h1 := writesOf_exportLoop_le o p lyrics running rc (total_frames p) k hrun
    (total_frames p) 0 (Nat.zero_le k)
  have h2 := exportLoop_cancel_shape o p lyrics running rc (total_frames p) k hrun
    (total_frames p) 0 (Nat.zero_le k) (by omega)
  exact ⟨by unfold ExportThread.run; omega, by unfold ExportThread.run; exact h2.1,
    by unfold ExportThread.run; exact h2.2⟩

/-- C8 witness: a 30-frame export cancelled before frame 2 writes at most
2 frames. -/
theorem claim_C8_witness :
    (writesOf (ExportThread.run trivOracle pSmall [] (fun i => decide (i < 2)) 0)).length ≤ 2 :=
  (claim_C8_cancellation trivOracle pSmall [] 0 (fun i => decide (i < 2)) 2
    (by with_unfolding_all decide)
    (fun j hj => decide_eq_false_iff_not.mpr (by omega))).1
